import Mathlib

/-!
Verification development for the game-server session layer of manaserv
(src/src/gamehandler.cpp): the token rendezvous between account-side
hand-offs (registerGameClient) and game-side connect attempts
(GameHandler::processMessage), tick-based expiry of unmatched hand-offs
(GameHandler::removeOutdatedPending), cleanup on disconnect
(GameHandler::computerDisconnected), and proximity broadcast
(GameHandler::sayAround).

The state of the C++ module is embedded shallowly: the two std::map
globals pendingLogins and pendingClients become association lists with
the std::map insert semantics (insert is a no-op when the key is already
present), the per-connection character pointer becomes a finite map from
connection ids to identities, and every send on a connection is recorded
in an event log. Protocol constants live in a header outside the sources
at hand; only their distinctness is used. The Player object behind
PlayerPtr is owned by the external world state; the fields the handler
reads (name, map id, coordinates) are embedded, and the delegated
gameplay results (hasItem, equip) are supplied by a World record of
oracles.
-/

namespace Manaserv

/-- Protocol opcode and status constants. Their numeric values come from a
protocol header that is not part of the sources at hand; the development
only relies on the constants being pairwise distinct. -/
def PGMSG_CONNECT : Nat := 16

def GPMSG_CONNECT_RESPONSE : Nat := 17

def PGMSG_SAY : Nat := 32

def GPMSG_SAY : Nat := 33

def PGMSG_PICKUP : Nat := 34

def GPMSG_PICKUP_RESPONSE : Nat := 35

def PGMSG_USE_ITEM : Nat := 36

def GPMSG_USE_RESPONSE : Nat := 37

def PGMSG_WALK : Nat := 38

def PGMSG_EQUIP : Nat := 39

def GPMSG_EQUIP_RESPONSE : Nat := 40

def XXMSG_INVALID : Nat := 255

def ERRMSG_OK : Nat := 0

def ERRMSG_FAILURE : Nat := 1

/-- Magic tokens (opaque fixed-length strings in the source). -/
abbrev Token := String

/-- A connection (GameClient) is identified by an id standing for the
object address. -/
abbrev ConnId := Nat

/-- The part of the external Player object that the handler reads: an
object id (standing for the PlayerPtr address), getName, getMapId and
getXY. -/
structure Identity where
  pid : Nat
  name : String
  mapId : Nat
  posX : Nat
  posY : Nat
deriving DecidableEq

/-- struct GamePendingLogin: the character handed off by the account
server together with its remaining timeout in world ticks. The timeout
is a C++ int, embedded as Int. -/
structure GamePendingLogin where
  character : Identity
  timeout : Int
deriving DecidableEq

/-- One field written into a MessageOut: writeShort, writeByte or
writeString. -/
inductive Field where
  | shortF : Nat → Field
  | byteF : Nat → Field
  | stringF : String → Field
deriving DecidableEq

/-- A MessageOut is the list of fields written into it, in order. -/
abbrev MessageOut := List Field

/-- An inbound message: the opcode returned by getId together with the
typed payload fields a handler may read (readString for the token or the
say text, readLong for item ids, readShort for coordinates, readByte for
the equip slot). Fields not read by the opcode at hand are ignored. -/
structure MessageIn where
  id : Nat
  token : Token
  text : String
  itemId : Nat
  x : Nat
  y : Nat
  slot : Nat
deriving DecidableEq

/-- Results of the gameplay operations that the handler delegates to the
external Player object: hasItem and equip. -/
structure World where
  hasItem : Identity → Nat → Bool
  equipOk : Identity → Nat → Nat → Bool

/-- First value stored under a key in an association list (std::map
find). -/
def findEntry {κ α : Type} [DecidableEq κ] (k : κ) : List (κ × α) → Option α
  | [] => none
  | (k', a) :: rest => if k' = k then some a else findEntry k rest

/-- std::map insert: a no-op when the key is already present, otherwise
the new entry is added. -/
def mapInsert {κ α : Type} [DecidableEq κ] (k : κ) (a : α) (l : List (κ × α)) :
    List (κ × α) :=
  if (findEntry k l).isSome then l else (k, a) :: l

/-- std::map erase of the entry found under a key (removes the first
entry with that key). -/
def eraseEntry {κ α : Type} [DecidableEq κ] (k : κ) : List (κ × α) → List (κ × α)
  | [] => []
  | (k', a) :: rest => if k' = k then rest else (k', a) :: eraseEntry k rest

/-- Overwrite the value under a key, or add the entry when the key is
absent (used for the setCharacter pointer assignment). -/
def setEntry {κ α : Type} [DecidableEq κ] (k : κ) (a : α) : List (κ × α) → List (κ × α)
  | [] => [(k, a)]
  | (k', a') :: rest => if k' = k then (k, a) :: rest else (k', a') :: setEntry k a rest

/-- Number of entries stored under a key. -/
def countKey {κ α : Type} [DecidableEq κ] (k : κ) (l : List (κ × α)) : Nat :=
  l.countP (fun e => decide (e.1 = k))

/-- Number of pending-client entries whose value is a given connection. -/
def countConn (c : ConnId) (l : List (Token × ConnId)) : Nat :=
  l.countP (fun e => decide (e.2 = c))

/-- The loop of GameHandler::processMessage over pendingClients that
looks for an entry whose value is the given connection. -/
def connReferenced (c : ConnId) (l : List (Token × ConnId)) : Bool :=
  l.any (fun e => decide (e.2 = c))

/-- The loop of GameHandler::computerDisconnected: erase the first
pendingClients entry whose value is the given connection, then break. -/
def eraseFirstClient (c : ConnId) : List (Token × ConnId) → List (Token × ConnId)
  | [] => []
  | (t, c') :: rest => if c' = c then rest else (t, c') :: eraseFirstClient c rest

/-- The embedded module state: the two pending std::maps, the connection
registry of the ConnectionHandler, the per-connection character binding
(the GameClient character pointer; absent means NULL, i.e. unbound), and
the log of every message sent on a connection, oldest first. -/
structure ServerState where
  pendingLogins : List (Token × GamePendingLogin)
  pendingClients : List (Token × ConnId)
  clients : List ConnId
  characters : List (ConnId × Identity)
  sent : List (ConnId × MessageOut)
deriving DecidableEq

/-- The state before any operation: both pending maps empty, no
connections, nothing sent. -/
def initState : ServerState :=
  { pendingLogins := [], pendingClients := [], clients := [], characters := [], sent := [] }

/-- getCharacter of a connection: none embeds a NULL character pointer
(the connection is unbound). -/
def getCharacter (c : ConnId) (s : ServerState) : Option Identity :=
  findEntry c s.characters

/-- computer.send(msg): append the message to the event log. -/
def sendMessage (c : ConnId) (m : MessageOut) (s : ServerState) : ServerState :=
  { s with sent := s.sent ++ [(c, m)] }

/-- The success response built by both rendezvous paths: writeShort
GPMSG_CONNECT_RESPONSE then writeByte ERRMSG_OK. -/
def connectOkResponse : MessageOut :=
  [Field.shortF GPMSG_CONNECT_RESPONSE, Field.byteF ERRMSG_OK]

/-- registerGameClient(token, ch): if a pending client holds the token,
bind it, erase the entry and send the success response; otherwise store
a GamePendingLogin with timeout 300 world ticks (std::map insert, so a
no-op when the token already has a pending login). -/
def registerGameClient (token : Token) (ch : Identity) (s : ServerState) : ServerState :=
  match findEntry token s.pendingClients with
  | some conn =>
      sendMessage conn connectOkResponse
        { s with
          characters := setEntry conn ch s.characters,
          pendingClients := eraseEntry token s.pendingClients }
  | none =>
      { s with
        pendingLogins :=
          mapInsert token { character := ch, timeout := 300 } s.pendingLogins }

/-- One pending login after a tick: the decrement-then-test of
removeOutdatedPending. The entry survives with its timeout decremented
unless the decremented timeout is at most zero. -/
def stepLogin (p : GamePendingLogin) : Option GamePendingLogin :=
  if p.timeout - 1 ≤ 0 then none else some { p with timeout := p.timeout - 1 }

/-- GameHandler::removeOutdatedPending: walk pendingLogins, decrement
every timeout and erase the entries whose decremented timeout is at most
zero. -/
def removeOutdatedPending : List (Token × GamePendingLogin) → List (Token × GamePendingLogin)
  | [] => []
  | (t, p) :: rest =>
      match stepLogin p with
      | none => removeOutdatedPending rest
      | some p' => (t, p') :: removeOutdatedPending rest

/-- The per-tick housekeeping of GameHandler::process: run
removeOutdatedPending once (the message pumping of
ConnectionHandler::process is the separate message operation). -/
def tick (s : ServerState) : ServerState :=
  { s with pendingLogins := removeOutdatedPending s.pendingLogins }

/-- n consecutive world ticks. -/
def tickN : Nat → ServerState → ServerState
  | 0, s => s
  | n + 1, s => tickN n (tick s)

/-- GameHandler::computerDisconnected: erase the first pendingClients
entry referencing the connection (then break), and destroy the
connection object: the external ConnectionHandler drops it from the
registry and its character pointer dies with it. -/
def computerDisconnected (c : ConnId) (s : ServerState) : ServerState :=
  { s with
    pendingClients := eraseFirstClient c s.pendingClients,
    clients := s.clients.erase c,
    characters := eraseEntry c s.characters }

/-- GameHandler::computerConnected: a fresh GameClient joins the
registry with a NULL character. -/
def computerConnected (c : ConnId) (s : ServerState) : ServerState :=
  { s with clients := if c ∈ s.clients then s.clients else s.clients ++ [c] }

/-- The broadcast message built by GameHandler::sayAround: opcode
GPMSG_SAY, then the speaker name and the text. -/
def sayMessage (speakerName text : String) : MessageOut :=
  [Field.shortF GPMSG_SAY, Field.stringF speakerName, Field.stringF text]

/-- The per-listener test of the sayAround loop: the listener character
is not NULL, shares the speaker map id, and areAround holds of the two
coordinate pairs. -/
def hearsSay (areAround : Nat → Nat → Nat → Nat → Bool) (speaker : Identity)
    (s : ServerState) (c : ConnId) : Bool :=
  match getCharacter c s with
  | none => false
  | some listener =>
      decide (listener.mapId = speaker.mapId) &&
        areAround listener.posX listener.posY speaker.posX speaker.posY

/-- GameHandler::sayAround: send the say message to every registered
connection whose character passes the map and proximity test. The
speaker identity is the character of the sending client (dereferenced at
entry in the source); areAround is the proximity predicate supplied by
the external map collaborator. -/
def sayAround (areAround : Nat → Nat → Nat → Nat → Bool) (speaker : Identity)
    (text : String) (s : ServerState) : ServerState :=
  { s with
    sent := s.sent ++
      (s.clients.filter (hearsSay areAround speaker s)).map
        (fun c => (c, sayMessage speaker.name text)) }

/-- GameHandler::processMessage. Unbound connection: only PGMSG_CONNECT
is processed; a token with a pending login is matched (bind, erase,
success response), otherwise the connection becomes a pending client
unless it already is one (silent in either case). Bound connection: the
gameplay opcode switch; the accumulated result is sent only when it is
non-empty (PGMSG_SAY and PGMSG_WALK write nothing). The inventory,
destination and equip effects live in the external world state; only the
delegated results that pick a response byte are consulted, through the
World oracles. -/
def processMessage (w : World) (areAround : Nat → Nat → Nat → Nat → Bool)
    (conn : ConnId) (m : MessageIn) (s : ServerState) : ServerState :=
  match getCharacter conn s with
  | none =>
      if m.id ≠ PGMSG_CONNECT then s
      else
        match findEntry m.token s.pendingLogins with
        | some p =>
            sendMessage conn connectOkResponse
              { s with
                characters := setEntry conn p.character s.characters,
                pendingLogins := eraseEntry m.token s.pendingLogins }
        | none =>
            if connReferenced conn s.pendingClients then s
            else { s with pendingClients := mapInsert m.token conn s.pendingClients }
  | some ch =>
      if m.id = PGMSG_SAY then sayAround areAround ch m.text s
      else if m.id = PGMSG_PICKUP then
        sendMessage conn [Field.shortF GPMSG_PICKUP_RESPONSE, Field.byteF ERRMSG_OK] s
      else if m.id = PGMSG_USE_ITEM then
        sendMessage conn
          [Field.shortF GPMSG_USE_RESPONSE,
           Field.byteF (if w.hasItem ch m.itemId then ERRMSG_OK else ERRMSG_FAILURE)] s
      else if m.id = PGMSG_WALK then s
      else if m.id = PGMSG_EQUIP then
        sendMessage conn
          [Field.shortF GPMSG_EQUIP_RESPONSE,
           Field.byteF (if w.equipOk ch m.itemId m.slot then ERRMSG_OK else ERRMSG_FAILURE)] s
      else
        sendMessage conn [Field.shortF XXMSG_INVALID] s

/-- The operations that drive the module state. -/
inductive Op where
  | accept : ConnId → Op
  | register : Token → Identity → Op
  | message : World → (Nat → Nat → Nat → Nat → Bool) → ConnId → MessageIn → Op
  | tickOp : Op
  | disconnect : ConnId → Op

/-- Apply one operation to the state. -/
def applyOp (s : ServerState) : Op → ServerState
  | Op.accept c => computerConnected c s
  | Op.register t ch => registerGameClient t ch s
  | Op.message w ar c m => processMessage w ar c m s
  | Op.tickOp => tick s
  | Op.disconnect c => computerDisconnected c s

/-- Apply a sequence of operations, oldest first. -/
def applyOps (s : ServerState) (ops : List Op) : ServerState :=
  ops.foldl applyOp s

/-- The states reachable from the empty state. -/
inductive Reachable : ServerState → Prop where
  | init : Reachable initState
  | step : ∀ s op, Reachable s → Reachable (applyOp s op)

/-- Whether an operation is a disconnect. -/
def isDisconnect : Op → Bool
  | Op.disconnect _ => true
  | _ => false

/-- A CONNECT message carrying a token. -/
def connectMessage (t : Token) : MessageIn :=
  { id := PGMSG_CONNECT, token := t, text := "", itemId := 0, x := 0, y := 0, slot := 0 }

/-- The exclusivity invariant: no token has both a pending login and a
pending client. -/
def Excl (s : ServerState) : Prop :=
  ∀ t : Token, findEntry t s.pendingLogins = none ∨ findEntry t s.pendingClients = none

/-- The dedup invariant: no connection is referenced twice by
pendingClients. -/
def Dedup (s : ServerState) : Prop :=
  ∀ c : ConnId, countConn c s.pendingClients ≤ 1

/-- A connection bound to an identity with no stale pendingClients entry
referencing it. -/
def BoundClean (c : ConnId) (id : Identity) (s : ServerState) : Prop :=
  getCharacter c s = some id ∧ connReferenced c s.pendingClients = false

/-- Identities used in the closed instantiations. -/
def idA : Identity := { pid := 1, name := "A", mapId := 0, posX := 0, posY := 0 }

def idB : Identity := { pid := 2, name := "B", mapId := 0, posX := 1, posY := 0 }

def idC : Identity := { pid := 3, name := "C", mapId := 0, posX := 10, posY := 10 }

def idD : Identity := { pid := 4, name := "D", mapId := 1, posX := 1, posY := 1 }

/-- A World whose delegated gameplay results are all negative. -/
def trivialWorld : World :=
  { hasItem := fun _ _ => false, equipOk := fun _ _ _ => false }

/-- A proximity predicate that always holds. -/
def trivialAround : Nat → Nat → Nat → Nat → Bool := fun _ _ _ _ => true

/-- Chebyshev adjacency, a concrete proximity predicate for the closed
instantiations. -/
def chebyshevNear : Nat → Nat → Nat → Nat → Bool := fun x1 y1 x2 y2 =>
  decide (x1 ≤ x2 + 1 ∧ x2 ≤ x1 + 1 ∧ y1 ≤ y2 + 1 ∧ y2 ≤ y1 + 1)

/-- Connection 1 attempts token T1 (unmatched, so it becomes a pending
client), the account side hands off T2, and connection 1 then attempts
T2 and is bound to idB by a successful rendezvous match. The pending
client for T1 is stale but still present. -/
def rebindState : ServerState :=
  processMessage trivialWorld trivialAround 1 (connectMessage "T2")
    (registerGameClient "T2" idB
      (processMessage trivialWorld trivialAround 1 (connectMessage "T1")
        (computerConnected 1 initState)))

/-- A SAY message, used to instantiate the non-connect case. -/
def sayMessageIn : MessageIn :=
  { id := PGMSG_SAY, token := "", text := "hi", itemId := 0, x := 0, y := 0, slot := 0 }

/-- A reachable state in which connection 1 is an unmatched pending
client for token T4. -/
def dedupState : ServerState :=
  applyOp (applyOp initState (Op.accept 1))
    (Op.message trivialWorld trivialAround 1 (connectMessage "T4"))

/-- A reachable state in which connection 1 is an unmatched pending
client for token T6. -/
def disconnectState : ServerState :=
  applyOp (applyOp initState (Op.accept 1))
    (Op.message trivialWorld trivialAround 1 (connectMessage "T6"))

/-- A state holding an unmatched pending login for token T. -/
def collisionState : ServerState := registerGameClient "T" idA initState

/-- Connection 1 bound to idA by a handoff-first rendezvous, with no
stale pending-client entry. -/
def cleanBoundState : ServerState :=
  processMessage trivialWorld trivialAround 1 (connectMessage "T0")
    (registerGameClient "T0" idA (computerConnected 1 initState))

/-- Operations run after cleanBoundState in the closed instantiation of
the amended terminality claim. -/
def laterOps : List Op :=
  [Op.tickOp, Op.register "U" idB,
   Op.message trivialWorld trivialAround 2 (connectMessage "U"), Op.accept 3]

/-- Four bound connections: 1 and 2 adjacent on map 0, 3 far away on map
0, 4 on map 1. -/
def broadcastState : ServerState :=
  { pendingLogins := [], pendingClients := [], clients := [1, 2, 3, 4],
    characters := [(1, idA), (2, idB), (3, idC), (4, idD)], sent := [] }

section AssocLemmas

variable {κ α : Type} [DecidableEq κ]

lemma findEntry_mapInsert_self (k : κ) (a : α) (l : List (κ × α))
    (h : findEntry k l = none) : findEntry k (mapInsert k a l) = some a := by
  simp [mapInsert, h, findEntry]

lemma findEntry_mapInsert_ne (k k' : κ) (a : α) (l : List (κ × α))
    (h : k ≠ k') : findEntry k (mapInsert k' a l) = findEntry k l := by
  unfold mapInsert
  split
  · rfl
  · simp [findEntry, Ne.symm h]

lemma eraseEntry_mapInsert_of_none (k : κ) (a : α) (l : List (κ × α))
    (h : findEntry k l = none) : eraseEntry k (mapInsert k a l) = l := by
  simp [mapInsert, h, eraseEntry]

lemma findEntry_eraseEntry_of_none (k k' : κ) (l : List (κ × α))
    (h : findEntry k l = none) : findEntry k (eraseEntry k' l) = none := by
  induction l with
  | nil => simpa [eraseEntry] using h
  | cons e rest ih =>
      obtain ⟨k₀, a₀⟩ := e
      by_cases hk : k₀ = k
      · simp [findEntry, hk] at h
      · simp only [findEntry, hk, if_false] at h
        unfold eraseEntry
        split
        · exact h
        · simp [findEntry, hk, ih h]

lemma findEntry_eraseEntry_ne (k k' : κ) (l : List (κ × α))
    (h : k ≠ k') : findEntry k (eraseEntry k' l) = findEntry k l := by
  induction l with
  | nil => simp [eraseEntry]
  | cons e rest ih =>
      obtain ⟨k₀, a₀⟩ := e
      unfold eraseEntry
      split
      · rename_i hk
        subst hk
        simp [findEntry, Ne.symm h]
      · simp [findEntry, ih]

lemma findEntry_setEntry_self (k : κ) (a : α) (l : List (κ × α)) :
    findEntry k (setEntry k a l) = some a := by
  induction l with
  | nil => simp [setEntry, findEntry]
  | cons e rest ih =>
      obtain ⟨k₀, a₀⟩ := e
      unfold setEntry
      split
      · simp [findEntry]
      · rename_i hk
        simp [findEntry, hk, ih]

lemma findEntry_setEntry_ne (k k' : κ) (a : α) (l : List (κ × α))
    (h : k ≠ k') : findEntry k (setEntry k' a l) = findEntry k l := by
  induction l with
  | nil => simp [setEntry, findEntry, Ne.symm h]
  | cons e rest ih =>
      obtain ⟨k₀, a₀⟩ := e
      unfold setEntry
      split
      · rename_i hk
        subst hk
        simp [findEntry, Ne.symm h]
      · simp [findEntry, ih]

lemma countKey_eq_zero_iff (k : κ) (l : List (κ × α)) :
    countKey k l = 0 ↔ findEntry k l = none := by
  induction l with
  | nil => simp [countKey, findEntry]
  | cons e rest ih =>
      obtain ⟨k₀, a₀⟩ := e
      by_cases hk : k₀ = k
      · simp [countKey, List.countP_cons, findEntry, hk]
      · simpa [countKey, List.countP_cons, findEntry, hk] using ih

lemma countKey_cons_self (k : κ) (a : α) (l : List (κ × α)) :
    countKey k ((k, a) :: l) = countKey k l + 1 := by
  simp [countKey, List.countP_cons]

end AssocLemmas

section TickLemmas

lemma findEntry_removeOutdated_of_none (T : Token) (l : List (Token × GamePendingLogin))
    (h : findEntry T l = none) : findEntry T (removeOutdatedPending l) = none := by
  induction l with
  | nil => simpa [removeOutdatedPending] using h
  | cons e rest ih =>
      obtain ⟨t, p⟩ := e
      by_cases ht : t = T
      · simp [findEntry, ht] at h
      · simp only [findEntry, ht, if_false] at h
        unfold removeOutdatedPending
        cases stepLogin p with
        | none => exact ih h
        | some p' => simp [findEntry, ht, ih h]

lemma countKey_removeOutdated_le (T : Token) (l : List (Token × GamePendingLogin)) :
    countKey T (removeOutdatedPending l) ≤ countKey T l := by
  induction l with
  | nil => simp [removeOutdatedPending]
  | cons e rest ih =>
      obtain ⟨t, p⟩ := e
      unfold removeOutdatedPending
      cases stepLogin p with
      | none =>
          calc countKey T (removeOutdatedPending rest) ≤ countKey T rest := ih
            _ ≤ countKey T ((t, p) :: rest) := by
                simp [countKey, List.countP_cons]
      | some p' =>
          simp only [countKey, List.countP_cons]
          have : (removeOutdatedPending rest).countP (fun e => decide (e.1 = T)) ≤
              rest.countP (fun e => decide (e.1 = T)) := ih
          omega

lemma findEntry_removeOutdated_unique (T : Token) (l : List (Token × GamePendingLogin))
    (p : GamePendingLogin) (hc : countKey T l ≤ 1) (hf : findEntry T l = some p) :
    findEntry T (removeOutdatedPending l) = stepLogin p := by
  induction l with
  | nil => simp [findEntry] at hf
  | cons e rest ih =>
      obtain ⟨t, q⟩ := e
      by_cases ht : t = T
      · subst ht
        simp [findEntry] at hf
        subst hf
        rw [countKey_cons_self] at hc
        have hrest : findEntry t rest = none := by
          rw [← countKey_eq_zero_iff (α := GamePendingLogin)]
          omega
        show findEntry t (removeOutdatedPending ((t, q) :: rest)) = stepLogin q
        simp only [removeOutdatedPending]
        cases hs : stepLogin q with
        | none => simpa using findEntry_removeOutdated_of_none _ _ hrest
        | some p' => simp [findEntry]
      · simp only [findEntry, ht, if_false] at hf
        have hc' : countKey T rest ≤ 1 := by
          have : countKey T ((t, q) :: rest) = countKey T rest := by
            simp [countKey, List.countP_cons, ht]
          omega
        unfold removeOutdatedPending
        cases stepLogin q with
        | none => exact ih hc' hf
        | some q' => simp [findEntry, ht, ih hc' hf]

lemma tickN_succ_after (n : Nat) (s : ServerState) :
    tickN (n + 1) s = tick (tickN n s) := by
  induction n generalizing s with
  | zero => rfl
  | succ n ih =>
      show tickN (n + 1) (tick s) = tick (tickN (n + 1) s)
      rw [ih (tick s)]
      rfl

lemma tickN_sent (n : Nat) (s : ServerState) : (tickN n s).sent = s.sent := by
  induction n generalizing s with
  | zero => rfl
  | succ n ih => simpa [tickN, tick] using ih (tick s)

lemma tickN_pendingClients (n : Nat) (s : ServerState) :
    (tickN n s).pendingClients = s.pendingClients := by
  induction n generalizing s with
  | zero => rfl
  | succ n ih => simpa [tickN, tick] using ih (tick s)

lemma tickN_characters (n : Nat) (s : ServerState) :
    (tickN n s).characters = s.characters := by
  induction n generalizing s with
  | zero => rfl
  | succ n ih => simpa [tickN, tick] using ih (tick s)

lemma findEntry_tickN (T : Token) (id : Identity) :
    ∀ (n : Nat) (s : ServerState) (k : Int),
      countKey T s.pendingLogins ≤ 1 →
      findEntry T s.pendingLogins = some { character := id, timeout := k } →
      (n : Int) < k →
      findEntry T (tickN n s).pendingLogins = some { character := id, timeout := k - n } ∧
        countKey T (tickN n s).pendingLogins ≤ 1 := by
  intro n
  induction n with
  | zero =>
      intro s k hc hf _
      refine ⟨?_, hc⟩
      simpa using hf
  | succ n ih =>
      intro s k hc hf hn
      have hk2 : ¬ (k - 1 ≤ 0) := by
        have : (0 : Int) ≤ (n : Int) := Int.natCast_nonneg n
        omega
      have hstep : stepLogin { character := id, timeout := k } =
          some { character := id, timeout := k - 1 } := by
        simp [stepLogin, hk2]
      have htick : findEntry T (tick s).pendingLogins =
          some { character := id, timeout := k - 1 } := by
        show findEntry T (removeOutdatedPending s.pendingLogins) = _
        rw [findEntry_removeOutdated_unique T s.pendingLogins _ hc hf, hstep]
      have hctick : countKey T (tick s).pendingLogins ≤ 1 := by
        calc countKey T (removeOutdatedPending s.pendingLogins)
            ≤ countKey T s.pendingLogins := countKey_removeOutdated_le _ _
          _ ≤ 1 := hc
      have hn' : (n : Int) < k - 1 := by push_cast at hn ⊢; omega
      have := ih (tick s) (k - 1) hctick htick hn'
      refine ⟨?_, this.2⟩
      have heq : k - 1 - (n : Int) = k - ((n : Nat) + 1 : Nat) := by push_cast; ring
      rw [show tickN (n + 1) s = tickN n (tick s) from rfl]
      rw [this.1, heq]

end TickLemmas

section ClientLemmas

lemma connReferenced_iff_countConn (c : ConnId) (l : List (Token × ConnId)) :
    connReferenced c l = false ↔ countConn c l = 0 := by
  simp [connReferenced, countConn, List.countP_eq_zero, List.any_eq_false]

lemma findEntry_some_connReferenced (t : Token) (c : ConnId)
    (l : List (Token × ConnId)) (h : findEntry t l = some c) :
    connReferenced c l = true := by
  induction l with
  | nil => simp [findEntry] at h
  | cons e rest ih =>
      obtain ⟨t₀, c₀⟩ := e
      by_cases ht : t₀ = t
      · subst ht
        simp [findEntry] at h
        simp [connReferenced, h]
      · simp only [findEntry, ht, if_false] at h
        simp [connReferenced] at ih ⊢
        exact Or.inr (ih h)

lemma countConn_eraseEntry_le (c : ConnId) (k : Token) (l : List (Token × ConnId)) :
    countConn c (eraseEntry k l) ≤ countConn c l := by
  induction l with
  | nil => simp [eraseEntry]
  | cons e rest ih =>
      obtain ⟨t, c'⟩ := e
      unfold eraseEntry
      split
      · simp [countConn, List.countP_cons]
      · simp only [countConn, List.countP_cons] at ih ⊢
        omega

lemma countConn_eraseFirstClient_le (c c' : ConnId) (l : List (Token × ConnId)) :
    countConn c (eraseFirstClient c' l) ≤ countConn c l := by
  induction l with
  | nil => simp [eraseFirstClient]
  | cons e rest ih =>
      obtain ⟨t, c₀⟩ := e
      unfold eraseFirstClient
      split
      · simp [countConn, List.countP_cons]
      · simp only [countConn, List.countP_cons] at ih ⊢
        omega

lemma countConn_eraseFirstClient_self (c : ConnId) (l : List (Token × ConnId))
    (h : countConn c l ≤ 1) : countConn c (eraseFirstClient c l) = 0 := by
  induction l with
  | nil => simp [eraseFirstClient, countConn]
  | cons e rest ih =>
      obtain ⟨t, c₀⟩ := e
      by_cases hc : c₀ = c
      · subst hc
        have he : eraseFirstClient c₀ ((t, c₀) :: rest) = rest := by
          simp [eraseFirstClient]
        rw [he]
        have hcount : countConn c₀ ((t, c₀) :: rest) = countConn c₀ rest + 1 := by
          simp [countConn, List.countP_cons]
        rw [hcount] at h
        omega
      · simp only [eraseFirstClient, if_neg hc]
        have hcount : countConn c ((t, c₀) :: rest) = countConn c rest := by
          simp [countConn, List.countP_cons, hc]
        rw [hcount] at h
        simpa [countConn, List.countP_cons, hc] using ih h

lemma connReferenced_eraseEntry (c : ConnId) (k : Token) (l : List (Token × ConnId))
    (h : connReferenced c l = false) : connReferenced c (eraseEntry k l) = false := by
  rw [connReferenced_iff_countConn] at h ⊢
  have := countConn_eraseEntry_le c k l
  omega

lemma connReferenced_mapInsert (c c' : ConnId) (t : Token) (l : List (Token × ConnId))
    (h : connReferenced c l = false) (hne : c' ≠ c) :
    connReferenced c (mapInsert t c' l) = false := by
  unfold mapInsert
  split
  · exact h
  · simp [connReferenced] at h ⊢
    exact ⟨hne, h⟩

end ClientLemmas

section Invariants

lemma findEntry_eraseFirstClient_of_none (t : Token) (c : ConnId)
    (l : List (Token × ConnId)) (h : findEntry t l = none) :
    findEntry t (eraseFirstClient c l) = none := by
  induction l with
  | nil => simpa [eraseFirstClient] using h
  | cons e rest ih =>
      obtain ⟨t₀, c₀⟩ := e
      by_cases ht : t₀ = t
      · simp [findEntry, ht] at h
      · simp only [findEntry, ht, if_false] at h
        unfold eraseFirstClient
        split
        · exact h
        · simp [findEntry, ht, ih h]

lemma countConn_cons (c c₀ : ConnId) (t : Token) (l : List (Token × ConnId)) :
    countConn c ((t, c₀) :: l) = countConn c l + (if c₀ = c then 1 else 0) := by
  by_cases hc : c₀ = c <;> simp [countConn, List.countP_cons, hc]

/-- The bound branch of processMessage only appends to the event log: the
pending maps, the registry and the bindings are untouched. -/
lemma processMessage_bound_frame (w : World) (ar : Nat → Nat → Nat → Nat → Bool)
    (conn : ConnId) (m : MessageIn) (s : ServerState) (ch : Identity)
    (h : getCharacter conn s = some ch) :
    (processMessage w ar conn m s).pendingLogins = s.pendingLogins ∧
    (processMessage w ar conn m s).pendingClients = s.pendingClients ∧
    (processMessage w ar conn m s).characters = s.characters ∧
    (processMessage w ar conn m s).clients = s.clients := by
  unfold processMessage
  rw [h]
  split_ifs <;> simp [sayAround, sendMessage]

lemma excl_applyOp (s : ServerState) (op : Op) (h : Excl s) : Excl (applyOp s op) := by
  cases op with
  | accept c =>
      intro t
      simpa [applyOp, computerConnected] using h t
  | register tk ch =>
      intro t
      show findEntry t (registerGameClient tk ch s).pendingLogins = none ∨
        findEntry t (registerGameClient tk ch s).pendingClients = none
      unfold registerGameClient
      cases hf : findEntry tk s.pendingClients with
      | some conn =>
          rcases h t with hl | hc
          · left
            simpa [sendMessage] using hl
          · right
            simpa [sendMessage] using findEntry_eraseEntry_of_none t tk _ hc
      | none =>
          by_cases ht : t = tk
          · subst ht
            right
            simpa using hf
          · rcases h t with hl | hc
            · left
              simpa using (findEntry_mapInsert_ne t tk _ _ ht).trans hl
            · right
              simpa using hc
  | message w ar c m =>
      intro t
      show findEntry t (processMessage w ar c m s).pendingLogins = none ∨
        findEntry t (processMessage w ar c m s).pendingClients = none
      unfold processMessage
      split
      · by_cases hid : m.id ≠ PGMSG_CONNECT
        · rw [if_pos hid]
          exact h t
        · rw [if_neg hid]
          split
          · rcases h t with hl | hc
            · left
              simpa [sendMessage] using findEntry_eraseEntry_of_none t m.token _ hl
            · right
              simpa [sendMessage] using hc
          · rename_i hfl
            by_cases href : connReferenced c s.pendingClients = true
            · rw [if_pos href]
              exact h t
            · rw [if_neg href]
              by_cases ht : t = m.token
              · subst ht
                left
                simpa using hfl
              · rcases h t with hl | hc
                · left
                  simpa using hl
                · right
                  simpa using (findEntry_mapInsert_ne t m.token _ _ ht).trans hc
      · rcases h t with hl | hc
        · left
          split_ifs <;> simpa [sayAround, sendMessage] using hl
        · right
          split_ifs <;> simpa [sayAround, sendMessage] using hc
  | tickOp =>
      intro t
      rcases h t with hl | hc
      · left
        simpa [applyOp, tick] using findEntry_removeOutdated_of_none t _ hl
      · right
        simpa [applyOp, tick] using hc
  | disconnect c =>
      intro t
      rcases h t with hl | hc
      · left
        simpa [applyOp, computerDisconnected] using hl
      · right
        simpa [applyOp, computerDisconnected] using
          findEntry_eraseFirstClient_of_none t c _ hc

lemma reachable_excl (s : ServerState) (h : Reachable s) : Excl s := by
  induction h with
  | init => intro t; left; rfl
  | step s op _ ih => exact excl_applyOp s op ih

lemma dedup_applyOp (s : ServerState) (op : Op) (h : Dedup s) : Dedup (applyOp s op) := by
  cases op with
  | accept c =>
      intro c'
      simpa [applyOp, computerConnected] using h c'
  | register tk ch =>
      intro c'
      show countConn c' (registerGameClient tk ch s).pendingClients ≤ 1
      unfold registerGameClient
      cases hf : findEntry tk s.pendingClients with
      | some conn =>
          simpa [sendMessage] using (countConn_eraseEntry_le c' tk _).trans (h c')
      | none => simpa using h c'
  | message w ar c m =>
      intro c'
      show countConn c' (processMessage w ar c m s).pendingClients ≤ 1
      unfold processMessage
      split
      · by_cases hid : m.id ≠ PGMSG_CONNECT
        · rw [if_pos hid]
          exact h c'
        · rw [if_neg hid]
          split
          · simpa [sendMessage] using h c'
          · by_cases href : connReferenced c s.pendingClients = true
            · rw [if_pos href]
              exact h c'
            · rw [if_neg href]
              show countConn c' (mapInsert m.token c s.pendingClients) ≤ 1
              unfold mapInsert
              split
              · exact h c'
              · rw [countConn_cons]
                by_cases hcc : c = c'
                · subst hcc
                  have h0 : countConn c s.pendingClients = 0 :=
                    (connReferenced_iff_countConn c _).mp (by simpa using href)
                  simp [h0]
                · have := h c'
                  simp [hcc]
                  omega
      · split_ifs <;> simpa [sayAround, sendMessage] using h c'
  | tickOp =>
      intro c'
      simpa [applyOp, tick] using h c'
  | disconnect c =>
      intro c'
      simpa [applyOp, computerDisconnected] using
        (countConn_eraseFirstClient_le c' c _).trans (h c')

lemma reachable_dedup (s : ServerState) (h : Reachable s) : Dedup s := by
  induction h with
  | init => intro c; simp [initState, countConn]
  | step s op _ ih => exact dedup_applyOp s op ih

end Invariants

section Terminal

lemma boundClean_applyOp (c : ConnId) (id : Identity) (s : ServerState) (op : Op)
    (h : BoundClean c id s) (hop : isDisconnect op = false) :
    BoundClean c id (applyOp s op) := by
  obtain ⟨hbind, href⟩ := h
  cases op with
  | accept c' =>
      exact ⟨by simpa [applyOp, computerConnected, getCharacter] using hbind,
        by simpa [applyOp, computerConnected] using href⟩
  | register tk ch =>
      show BoundClean c id (registerGameClient tk ch s)
      unfold registerGameClient
      cases hf : findEntry tk s.pendingClients with
      | some conn =>
          have hconn : conn ≠ c := by
            intro he
            subst he
            rw [findEntry_some_connReferenced tk conn s.pendingClients hf] at href
            exact Bool.noConfusion href
          constructor
          · show findEntry c (setEntry conn ch s.characters) = some id
            rw [findEntry_setEntry_ne c conn ch s.characters (Ne.symm hconn)]
            exact hbind
          · show connReferenced c (eraseEntry tk s.pendingClients) = false
            exact connReferenced_eraseEntry c tk _ href
      | none => exact ⟨hbind, href⟩
  | message w ar c' m =>
      show BoundClean c id (processMessage w ar c' m s)
      by_cases hcc : c' = c
      · subst hcc
        obtain ⟨h1, h2, h3, h4⟩ := processMessage_bound_frame w ar c' m s id hbind
        exact ⟨by simpa [getCharacter, h3] using hbind, by simpa [h2] using href⟩
      · unfold processMessage
        split
        · by_cases hid : m.id ≠ PGMSG_CONNECT
          · rw [if_pos hid]
            exact ⟨hbind, href⟩
          · rw [if_neg hid]
            split
            · constructor
              · show findEntry c (setEntry c' _ s.characters) = some id
                rw [findEntry_setEntry_ne c c' _ s.characters (Ne.symm hcc)]
                exact hbind
              · simpa [sendMessage] using href
            · by_cases hr : connReferenced c' s.pendingClients = true
              · rw [if_pos hr]
                exact ⟨hbind, href⟩
              · rw [if_neg hr]
                exact ⟨hbind, connReferenced_mapInsert c c' m.token _ href hcc⟩
        · split_ifs <;>
            exact ⟨by simpa [sayAround, sendMessage, getCharacter] using hbind,
              by simpa [sayAround, sendMessage] using href⟩
  | tickOp =>
      exact ⟨by simpa [applyOp, tick, getCharacter] using hbind,
        by simpa [applyOp, tick] using href⟩
  | disconnect c' => simp [isDisconnect] at hop

lemma boundClean_applyOps (c : ConnId) (id : Identity) (ops : List Op) :
    ∀ s : ServerState, BoundClean c id s →
      (∀ op ∈ ops, isDisconnect op = false) → BoundClean c id (applyOps s ops) := by
  induction ops with
  | nil => intro s h _; exact h
  | cons op rest ih =>
      intro s h hops
      have h1 : BoundClean c id (applyOp s op) :=
        boundClean_applyOp c id s op h (hops op (List.mem_cons_self op rest))
      exact ih (applyOp s op) h1 (fun o ho => hops o (List.mem_cons_of_mem op ho))

end Terminal

section BranchEquations

lemma registerGameClient_match (tk : Token) (ch : Identity) (s : ServerState)
    (conn : ConnId) (hf : findEntry tk s.pendingClients = some conn) :
    registerGameClient tk ch s =
      sendMessage conn connectOkResponse
        { s with
          characters := setEntry conn ch s.characters,
          pendingClients := eraseEntry tk s.pendingClients } := by
  unfold registerGameClient
  rw [hf]

lemma registerGameClient_nomatch (tk : Token) (ch : Identity) (s : ServerState)
    (hf : findEntry tk s.pendingClients = none) :
    registerGameClient tk ch s =
      { s with
        pendingLogins :=
          mapInsert tk { character := ch, timeout := 300 } s.pendingLogins } := by
  unfold registerGameClient
  rw [hf]

lemma processMessage_nonconnect (w : World) (ar : Nat → Nat → Nat → Nat → Bool)
    (c : ConnId) (m : MessageIn) (s : ServerState)
    (hU : getCharacter c s = none) (hm : m.id ≠ PGMSG_CONNECT) :
    processMessage w ar c m s = s := by
  unfold processMessage
  rw [hU]
  show (if m.id ≠ PGMSG_CONNECT then s else _) = s
  rw [if_pos hm]

lemma processMessage_connect_match (w : World) (ar : Nat → Nat → Nat → Nat → Bool)
    (c : ConnId) (m : MessageIn) (s : ServerState) (p : GamePendingLogin)
    (hU : getCharacter c s = none) (hm : m.id = PGMSG_CONNECT)
    (hf : findEntry m.token s.pendingLogins = some p) :
    processMessage w ar c m s =
      sendMessage c connectOkResponse
        { s with
          characters := setEntry c p.character s.characters,
          pendingLogins := eraseEntry m.token s.pendingLogins } := by
  unfold processMessage
  rw [hU]
  show (if m.id ≠ PGMSG_CONNECT then s else _) = _
  rw [if_neg (by simp [hm]), hf]

lemma processMessage_connect_dedup (w : World) (ar : Nat → Nat → Nat → Nat → Bool)
    (c : ConnId) (m : MessageIn) (s : ServerState)
    (hU : getCharacter c s = none) (hm : m.id = PGMSG_CONNECT)
    (hf : findEntry m.token s.pendingLogins = none)
    (hr : connReferenced c s.pendingClients = true) :
    processMessage w ar c m s = s := by
  unfold processMessage
  rw [hU]
  show (if m.id ≠ PGMSG_CONNECT then s else _) = s
  rw [if_neg (by simp [hm]), hf]
  show (if connReferenced c s.pendingClients = true then s else _) = s
  rw [if_pos hr]

lemma processMessage_connect_insert (w : World) (ar : Nat → Nat → Nat → Nat → Bool)
    (c : ConnId) (m : MessageIn) (s : ServerState)
    (hU : getCharacter c s = none) (hm : m.id = PGMSG_CONNECT)
    (hf : findEntry m.token s.pendingLogins = none)
    (hr : connReferenced c s.pendingClients = false) :
    processMessage w ar c m s =
      { s with pendingClients := mapInsert m.token c s.pendingClients } := by
  unfold processMessage
  rw [hU]
  show (if m.id ≠ PGMSG_CONNECT then s else _) = _
  rw [if_neg (by simp [hm]), hf]
  show (if connReferenced c s.pendingClients = true then s else _) = _
  rw [if_neg (by simp [hr])]

end BranchEquations

section ClaimTheorems

/-- Claim C1: handoff-first rendezvous. From a state with no pending
login and no pending client for token T and an unbound connection c,
registerGameClient for T followed by a connect attempt by c carrying T
leaves c bound to the handed-off identity, appends exactly one success
response (GPMSG_CONNECT_RESPONSE with status ERRMSG_OK) to the log,
addressed to c, and leaves neither a pending login nor a pending client
for T. -/
theorem handoff_first_rendezvous (w : World) (ar : Nat → Nat → Nat → Nat → Bool)
    (s : ServerState) (T : Token) (id : Identity) (c : ConnId) (m : MessageIn)
    (hm : m.id = PGMSG_CONNECT) (ht : m.token = T)
    (hL : findEntry T s.pendingLogins = none)
    (hPC : findEntry T s.pendingClients = none)
    (hU : getCharacter c s = none) :
    getCharacter c (processMessage w ar c m (registerGameClient T id s)) = some id ∧
    (processMessage w ar c m (registerGameClient T id s)).sent
      = s.sent ++ [(c, connectOkResponse)] ∧
    findEntry T (processMessage w ar c m (registerGameClient T id s)).pendingLogins
      = none ∧
    findEntry T (processMessage w ar c m (registerGameClient T id s)).pendingClients
      = none := by
  rw [registerGameClient_nomatch T id s hPC]
  have hU1 : getCharacter c
      { s with
        pendingLogins :=
          mapInsert T { character := id, timeout := 300 } s.pendingLogins } = none := by
    simpa [getCharacter] using hU
  have hf1 : findEntry m.token
      ({ s with
        pendingLogins :=
          mapInsert T { character := id, timeout := 300 } s.pendingLogins } :
        ServerState).pendingLogins = some { character := id, timeout := 300 } := by
    rw [ht]
    exact findEntry_mapInsert_self T _ s.pendingLogins hL
  rw [processMessage_connect_match w ar c m _ _ hU1 hm hf1]
  refine ⟨?_, ?_, ?_, ?_⟩
  · show findEntry c (setEntry c id s.characters) = some id
    exact findEntry_setEntry_self c id s.characters
  · simp [sendMessage]
  · show findEntry T (eraseEntry m.token
      (mapInsert T { character := id, timeout := 300 } s.pendingLogins)) = none
    rw [ht, eraseEntry_mapInsert_of_none T _ s.pendingLogins hL]
    exact hL
  · exact hPC

/-- Claim C2: connect-first rendezvous. From a state with no pending
login and no pending client for token T and an unbound connection c not
referenced by any pending client, a connect attempt by c carrying T
sends nothing yet; the following registerGameClient for T leaves c bound
to the handed-off identity, appends exactly one success response
(GPMSG_CONNECT_RESPONSE with status ERRMSG_OK) to the log, addressed to
c, and removes the pending client for T. -/
theorem connect_first_rendezvous (w : World) (ar : Nat → Nat → Nat → Nat → Bool)
    (s : ServerState) (T : Token) (id : Identity) (c : ConnId) (m : MessageIn)
    (hm : m.id = PGMSG_CONNECT) (ht : m.token = T)
    (hL : findEntry T s.pendingLogins = none)
    (hPC : findEntry T s.pendingClients = none)
    (hr : connReferenced c s.pendingClients = false)
    (hU : getCharacter c s = none) :
    (processMessage w ar c m s).sent = s.sent ∧
    getCharacter c (registerGameClient T id (processMessage w ar c m s)) = some id ∧
    (registerGameClient T id (processMessage w ar c m s)).sent
      = s.sent ++ [(c, connectOkResponse)] ∧
    findEntry T
      (registerGameClient T id (processMessage w ar c m s)).pendingClients = none := by
  have hfl : findEntry m.token s.pendingLogins = none := by rw [ht]; exact hL
  rw [processMessage_connect_insert w ar c m s hU hm hfl hr]
  have hins : mapInsert m.token c s.pendingClients = (T, c) :: s.pendingClients := by
    rw [ht]
    simp [mapInsert, hPC]
  have hfc : findEntry T
      ({ s with pendingClients := mapInsert m.token c s.pendingClients } :
        ServerState).pendingClients = some c := by
    rw [show ({ s with pendingClients := mapInsert m.token c s.pendingClients } :
        ServerState).pendingClients = mapInsert m.token c s.pendingClients from rfl,
      hins]
    simp [findEntry]
  rw [registerGameClient_match T id _ c hfc]
  refine ⟨rfl, ?_, ?_, ?_⟩
  · show findEntry c (setEntry c id s.characters) = some id
    exact findEntry_setEntry_self c id s.characters
  · simp [sendMessage]
  · show findEntry T (eraseEntry T
      (mapInsert m.token c s.pendingClients)) = none
    rw [hins]
    simp [eraseEntry, hPC]

/-- Claim C9: unauthenticated silence. While a connection is unbound, a
message whose opcode is not PGMSG_CONNECT leaves the state entirely
unchanged (in particular nothing is sent), and a PGMSG_CONNECT whose
token matches no pending login also sends nothing. -/
theorem unauthenticated_silence (w : World) (ar : Nat → Nat → Nat → Nat → Bool)
    (c : ConnId) (m : MessageIn) (s : ServerState)
    (hU : getCharacter c s = none) :
    (m.id ≠ PGMSG_CONNECT → processMessage w ar c m s = s) ∧
    (m.id = PGMSG_CONNECT → findEntry m.token s.pendingLogins = none →
      (processMessage w ar c m s).sent = s.sent) := by
  constructor
  · intro hm
    exact processMessage_nonconnect w ar c m s hU hm
  · intro hm hfl
    cases hr : connReferenced c s.pendingClients with
    | true => rw [processMessage_connect_dedup w ar c m s hU hm hfl hr]
    | false => rw [processMessage_connect_insert w ar c m s hU hm hfl hr]

/-- Claim C10: token-collision no-op. A registerGameClient for a token
that already has an unmatched pending login (and no pending client)
leaves the state entirely unchanged: the std::map insert keeps the
original identity and remaining timeout, the new identity is discarded
and nothing is sent. -/
theorem token_collision_noop (T : Token) (id2 : Identity) (s : ServerState)
    (p : GamePendingLogin)
    (hL : findEntry T s.pendingLogins = some p)
    (hPC : findEntry T s.pendingClients = none) :
    registerGameClient T id2 s = s := by
  rw [registerGameClient_nomatch T id2 s hPC]
  show ({ s with pendingLogins := mapInsert T _ s.pendingLogins } : ServerState) = s
  rw [show mapInsert T { character := id2, timeout := 300 } s.pendingLogins
      = s.pendingLogins by simp [mapInsert, hL]]

/-- Claim C3: exclusivity. In every state reachable from the empty state
no token has both a pending login and a pending client. -/
theorem exclusivity_invariant (s : ServerState) (h : Reachable s) (t : Token) :
    ¬(findEntry t s.pendingLogins ≠ none ∧ findEntry t s.pendingClients ≠ none) := by
  rcases reachable_excl s h t with hl | hc
  · exact fun hcon => hcon.1 hl
  · exact fun hcon => hcon.2 hc

/-- Claim C6: connection dedup. In every reachable state each connection
is referenced by at most one pending-client entry, and a connect attempt
by a connection that already has a pending-client entry and whose token
matches no pending login leaves the state entirely unchanged (so nothing
is added and nothing is sent). -/
theorem connection_dedup (s : ServerState) (h : Reachable s) :
    (∀ c : ConnId, countConn c s.pendingClients ≤ 1) ∧
    (∀ (w : World) (ar : Nat → Nat → Nat → Nat → Bool) (c : ConnId) (m : MessageIn),
      getCharacter c s = none →
      connReferenced c s.pendingClients = true →
      findEntry m.token s.pendingLogins = none →
      processMessage w ar c m s = s) := by
  refine ⟨reachable_dedup s h, ?_⟩
  intro w ar c m hU href hfl
  by_cases hm : m.id = PGMSG_CONNECT
  · exact processMessage_connect_dedup w ar c m s hU hm hfl href
  · exact processMessage_nonconnect w ar c m s hU hm

/-- Claim C7: disconnect cleanup. In every reachable state, disconnecting
a connection removes every pending-client entry referencing it: none is
left afterwards. -/
theorem disconnect_cleanup (s : ServerState) (h : Reachable s) (c : ConnId) :
    connReferenced c (computerDisconnected c s).pendingClients = false := by
  rw [connReferenced_iff_countConn]
  show countConn c (eraseFirstClient c s.pendingClients) = 0
  exact countConn_eraseFirstClient_self c s.pendingClients (reachable_dedup s h c)

/-- Claim C5: expiry timing. An unmatched registerGameClient creates a
pending login with timeout 300; after n ticks (n up to 299) the entry is
still present with timeout 300 - n, and after 300 ticks it is gone; no
tick ever sends anything. In general a tick maps an entry of timeout k
to one of timeout k - 1 and removes exactly the entries whose
decremented timeout reaches zero. -/
theorem expiry_timing (s : ServerState) (T : Token) (id : Identity)
    (hL : findEntry T s.pendingLogins = none)
    (hPC : findEntry T s.pendingClients = none) :
    findEntry T (registerGameClient T id s).pendingLogins
      = some { character := id, timeout := 300 } ∧
    (∀ n : Nat, n ≤ 299 →
      findEntry T (tickN n (registerGameClient T id s)).pendingLogins
        = some { character := id, timeout := 300 - (n : Int) }) ∧
    findEntry T (tickN 300 (registerGameClient T id s)).pendingLogins = none ∧
    (∀ n : Nat, (tickN n (registerGameClient T id s)).sent = s.sent) ∧
    (∀ (s' : ServerState) (t : Token) (p : GamePendingLogin),
      countKey t s'.pendingLogins ≤ 1 →
      findEntry t s'.pendingLogins = some p →
      findEntry t (tick s').pendingLogins
        = if p.timeout ≤ 1 then none
          else some { character := p.character, timeout := p.timeout - 1 }) := by
  rw [registerGameClient_nomatch T id s hPC]
  have hins : mapInsert T { character := id, timeout := 300 } s.pendingLogins
      = (T, { character := id, timeout := 300 }) :: s.pendingLogins := by
    simp [mapInsert, hL]
  have hfind : findEntry T
      ({ s with
        pendingLogins :=
          mapInsert T { character := id, timeout := 300 } s.pendingLogins } :
        ServerState).pendingLogins = some { character := id, timeout := 300 } := by
    rw [show ({ s with
        pendingLogins :=
          mapInsert T { character := id, timeout := 300 } s.pendingLogins } :
        ServerState).pendingLogins
      = mapInsert T { character := id, timeout := 300 } s.pendingLogins from rfl, hins]
    simp [findEntry]
  have hck : countKey T
      ({ s with
        pendingLogins :=
          mapInsert T { character := id, timeout := 300 } s.pendingLogins } :
        ServerState).pendingLogins ≤ 1 := by
    rw [show ({ s with
        pendingLogins :=
          mapInsert T { character := id, timeout := 300 } s.pendingLogins } :
        ServerState).pendingLogins
      = mapInsert T { character := id, timeout := 300 } s.pendingLogins from rfl, hins,
      countKey_cons_self]
    have h0 : countKey T s.pendingLogins = 0 := (countKey_eq_zero_iff T _).mpr hL
    omega
  have tickGeneral : ∀ (s' : ServerState) (t : Token) (p : GamePendingLogin),
      countKey t s'.pendingLogins ≤ 1 →
      findEntry t s'.pendingLogins = some p →
      findEntry t (tick s').pendingLogins
        = if p.timeout ≤ 1 then none
          else some { character := p.character, timeout := p.timeout - 1 } := by
    intro s' t p h1 h2
    show findEntry t (removeOutdatedPending s'.pendingLogins) = _
    rw [findEntry_removeOutdated_unique t s'.pendingLogins p h1 h2]
    unfold stepLogin
    by_cases hp : p.timeout ≤ 1
    · rw [if_pos (by omega), if_pos hp]
    · rw [if_neg (by omega), if_neg hp]
  refine ⟨hfind, ?_, ?_, ?_, tickGeneral⟩
  · intro n hn
    have hlt : (n : Int) < 300 := by
      have : (n : Int) ≤ 299 := by exact_mod_cast hn
      omega
    exact (findEntry_tickN T id n _ 300 hck hfind hlt).1
  · have h299 := findEntry_tickN T id 299 _ 300 hck hfind (by norm_num)
    rw [tickN_succ_after]
    have h1 : ((300 : Int) - (299 : Nat)) = 1 := by norm_num
    rw [h1] at h299
    rw [tickGeneral _ T { character := id, timeout := 1 } h299.2 h299.1]
    norm_num
  · intro n
    rw [tickN_sent]

lemma count_pair_map (msg : MessageOut) (c : ConnId) (l : List ConnId) :
    List.count (c, msg) (l.map (fun c' => (c', msg))) = List.count c l := by
  induction l with
  | nil => simp
  | cons a rest ih =>
      by_cases hc : a = c
      · subst hc
        simp [List.count_cons, ih]
      · simp [List.count_cons, hc, ih, Prod.ext_iff]

/-- Claim C8: proximity broadcast. sayAround appends the say message
(carrying the speaker name and the text) exactly once for each
registered connection whose bound identity shares the speaker map id and
whose coordinates pass the supplied proximity predicate, and zero times
for every other connection; unbound connections and identities on a
different map never receive it (their hearsSay test is false). -/
theorem proximity_broadcast (ar : Nat → Nat → Nat → Nat → Bool) (speaker : Identity)
    (text : String) (s : ServerState) (hnd : s.clients.Nodup) (c : ConnId) :
    List.count (c, sayMessage speaker.name text) (sayAround ar speaker text s).sent
      = List.count (c, sayMessage speaker.name text) s.sent
        + (if c ∈ s.clients ∧ hearsSay ar speaker s c = true then 1 else 0) := by
  show List.count (c, sayMessage speaker.name text)
      (s.sent ++ (s.clients.filter (hearsSay ar speaker s)).map
        (fun c' => (c', sayMessage speaker.name text)))
    = _
  rw [List.count_append, count_pair_map]
  congr 1
  by_cases hp : hearsSay ar speaker s c = true
  · rw [List.count_filter hp]
    by_cases hm : c ∈ s.clients
    · rw [List.count_eq_one_of_mem hnd hm, if_pos ⟨hm, hp⟩]
    · rw [List.count_eq_zero_of_not_mem hm, if_neg (fun hcon => hm hcon.1)]
  · rw [List.count_eq_zero_of_not_mem (fun hmem => hp (List.of_mem_filter hmem)),
      if_neg (fun hcon => hp hcon.2)]

/-- Claim C4 (amended): once a connection is bound and no pending-client
entry references it, no further sequence of connect attempts,
registerGameClient calls and ticks (any non-disconnect operations)
changes its binding. The side condition is forced: a pending-client
entry created by the connection before it became bound lets a later
registerGameClient for that stale token re-bind it (see the
counterexample). -/
theorem bound_terminal_amended (s : ServerState) (c : ConnId) (id : Identity)
    (ops : List Op) (hb : getCharacter c s = some id)
    (href : connReferenced c s.pendingClients = false)
    (hops : ∀ op ∈ ops, isDisconnect op = false) :
    getCharacter c (applyOps s ops) = some id :=
  (boundClean_applyOps c id ops s ⟨hb, href⟩ hops).1

/-- Claim C4 is false as stated: connection 1 is bound to idB by a
successful rendezvous match, yet the later registerGameClient for the
stale token T1 re-binds it to idA, so Bound is not terminal. -/
theorem bound_terminal_counterexample :
    getCharacter 1 rebindState = some idB ∧
    getCharacter 1 (registerGameClient "T1" idA rebindState) = some idA ∧
    idA ≠ idB := by
  refine ⟨by decide, by decide, by decide⟩

theorem handoff_first_rendezvous_witness :
    ((connectMessage "T1").id = PGMSG_CONNECT ∧
     (connectMessage "T1").token = "T1" ∧
     findEntry "T1" initState.pendingLogins = none ∧
     findEntry "T1" initState.pendingClients = none ∧
     getCharacter 1 initState = none) ∧
    (getCharacter 1
        (processMessage trivialWorld trivialAround 1 (connectMessage "T1")
          (registerGameClient "T1" idA initState)) = some idA ∧
     (processMessage trivialWorld trivialAround 1 (connectMessage "T1")
        (registerGameClient "T1" idA initState)).sent
       = initState.sent ++ [(1, connectOkResponse)] ∧
     findEntry "T1"
        (processMessage trivialWorld trivialAround 1 (connectMessage "T1")
          (registerGameClient "T1" idA initState)).pendingLogins = none ∧
     findEntry "T1"
        (processMessage trivialWorld trivialAround 1 (connectMessage "T1")
          (registerGameClient "T1" idA initState)).pendingClients = none) :=
  ⟨⟨rfl, rfl, rfl, rfl, rfl⟩,
   handoff_first_rendezvous trivialWorld trivialAround initState "T1" idA 1
     (connectMessage "T1") rfl rfl rfl rfl rfl⟩

theorem connect_first_rendezvous_witness :
    ((connectMessage "T2").id = PGMSG_CONNECT ∧
     (connectMessage "T2").token = "T2" ∧
     findEntry "T2" initState.pendingLogins = none ∧
     findEntry "T2" initState.pendingClients = none ∧
     connReferenced 1 initState.pendingClients = false ∧
     getCharacter 1 initState = none) ∧
    ((processMessage trivialWorld trivialAround 1 (connectMessage "T2") initState).sent
       = initState.sent ∧
     getCharacter 1
        (registerGameClient "T2" idB
          (processMessage trivialWorld trivialAround 1 (connectMessage "T2") initState))
       = some idB ∧
     (registerGameClient "T2" idB
        (processMessage trivialWorld trivialAround 1 (connectMessage "T2") initState)).sent
       = initState.sent ++ [(1, connectOkResponse)] ∧
     findEntry "T2"
        (registerGameClient "T2" idB
          (processMessage trivialWorld trivialAround 1
            (connectMessage "T2") initState)).pendingClients = none) :=
  ⟨⟨rfl, rfl, rfl, rfl, rfl, rfl⟩,
   connect_first_rendezvous trivialWorld trivialAround initState "T2" idB 1
     (connectMessage "T2") rfl rfl rfl rfl rfl rfl⟩

theorem exclusivity_invariant_witness :
    Reachable (applyOp initState (Op.register "T" idA)) ∧
    ¬(findEntry "T" (applyOp initState (Op.register "T" idA)).pendingLogins ≠ none ∧
      findEntry "T" (applyOp initState (Op.register "T" idA)).pendingClients ≠ none) :=
  ⟨Reachable.step initState (Op.register "T" idA) Reachable.init,
   exclusivity_invariant (applyOp initState (Op.register "T" idA))
     (Reachable.step initState (Op.register "T" idA) Reachable.init) "T"⟩

theorem bound_terminal_amended_witness :
    (getCharacter 1 cleanBoundState = some idA ∧
     connReferenced 1 cleanBoundState.pendingClients = false ∧
     (∀ op ∈ laterOps, isDisconnect op = false)) ∧
    getCharacter 1 (applyOps cleanBoundState laterOps) = some idA := by
  have hops : ∀ op ∈ laterOps, isDisconnect op = false := by
    intro op hop
    rcases hop with _ | ⟨_, _ | ⟨_, _ | ⟨_, _ | ⟨_, h⟩⟩⟩⟩ <;> first | rfl | cases h
  exact ⟨⟨rfl, rfl, hops⟩,
    bound_terminal_amended cleanBoundState 1 idA laterOps rfl rfl hops⟩

theorem expiry_timing_witness :
    (findEntry "T3" initState.pendingLogins = none ∧
     findEntry "T3" initState.pendingClients = none) ∧
    findEntry "T3" (tickN 299 (registerGameClient "T3" idC initState)).pendingLogins
      = some { character := idC, timeout := 1 } ∧
    findEntry "T3" (tickN 300 (registerGameClient "T3" idC initState)).pendingLogins
      = none := by
  have h := expiry_timing initState "T3" idC rfl rfl
  refine ⟨⟨rfl, rfl⟩, ?_, h.2.2.1⟩
  have h2 := h.2.1 299 (by norm_num)
  norm_num at h2
  exact h2

theorem connection_dedup_witness :
    Reachable dedupState ∧
    countConn 1 dedupState.pendingClients ≤ 1 ∧
    processMessage trivialWorld trivialAround 1 (connectMessage "T5") dedupState
      = dedupState := by
  have hr : Reachable dedupState :=
    Reachable.step _ _ (Reachable.step _ _ Reachable.init)
  exact ⟨hr, (connection_dedup dedupState hr).1 1,
    (connection_dedup dedupState hr).2 trivialWorld trivialAround 1
      (connectMessage "T5") rfl rfl rfl⟩

theorem disconnect_cleanup_witness :
    Reachable disconnectState ∧
    connReferenced 1 (computerDisconnected 1 disconnectState).pendingClients = false := by
  have hr : Reachable disconnectState :=
    Reachable.step _ _ (Reachable.step _ _ Reachable.init)
  exact ⟨hr, disconnect_cleanup disconnectState hr 1⟩

theorem proximity_broadcast_witness :
    broadcastState.clients.Nodup ∧
    List.count (2, sayMessage idA.name "hi")
        (sayAround chebyshevNear idA "hi" broadcastState).sent
      = List.count (2, sayMessage idA.name "hi") broadcastState.sent
        + (if 2 ∈ broadcastState.clients ∧
              hearsSay chebyshevNear idA broadcastState 2 = true
           then 1 else 0) :=
  ⟨by decide, proximity_broadcast chebyshevNear idA "hi" broadcastState (by decide) 2⟩

theorem unauthenticated_silence_witness :
    getCharacter 1 initState = none ∧
    processMessage trivialWorld trivialAround 1 sayMessageIn initState = initState ∧
    (processMessage trivialWorld trivialAround 1 (connectMessage "TX") initState).sent
      = initState.sent := by
  refine ⟨rfl, ?_, ?_⟩
  · exact (unauthenticated_silence trivialWorld trivialAround 1 sayMessageIn
      initState rfl).1 (by decide)
  · exact (unauthenticated_silence trivialWorld trivialAround 1 (connectMessage "TX")
      initState rfl).2 rfl rfl

theorem token_collision_noop_witness :
    (findEntry "T" collisionState.pendingLogins
       = some { character := idA, timeout := 300 } ∧
     findEntry "T" collisionState.pendingClients = none) ∧
    registerGameClient "T" idB collisionState = collisionState :=
  ⟨⟨rfl, rfl⟩,
   token_collision_noop "T" idB collisionState { character := idA, timeout := 300 }
     rfl rfl⟩

end ClaimTheorems

end Manaserv
